import Mathlib

/-!
Verification development for the lumen-nextjs-starter repository.

Shallow embedding of the two core subsystems:

1. the client state-sync engine of src/providers/sync-provider.tsx
   (loadInitialState, updateState), and
2. the streaming chat normalizer of src/app/(chat)/api/chat/route.ts
   together with src/app/(chat)/api/chat/anthropic-helper.ts.

Modelling conventions:

- JSON values are the inductive type JVal; machine-level JSON text at the
  localStorage boundary is modelled by storing the parsed value directly
  (the serialize/parse round trip of the browser is the identity on
  JSON-serializable values), while the comparison
  JSON.stringify(a) !== JSON.stringify(b) performed by the merge loop is
  embedded literally via the stringify function below.
- localStorage and the remote user_data blob are association lists from
  string keys to JVal, in insertion order, with unique keys maintained by
  assocSet exactly as a JS object spread keeps the position of an existing
  key and appends a new one.
- Asynchronous environment responses (auth user present, remote fetch or
  write success, provider HTTP success) are passed in explicitly as an
  environment record, and each enqueued server-sent frame is modelled as
  its parsed event.
-/

/-- A JSON value, as produced by JSON.parse. Numbers are modelled as
integers, which covers every value appearing in the claims. -/
inductive JVal where
  | null : JVal
  | bool (b : Bool) : JVal
  | num (n : Int) : JVal
  | str (s : String) : JVal
  | arr (elems : List JVal) : JVal
  | obj (fields : List (String × JVal)) : JVal
  deriving Repr

/-- JSON string escaping of one character, as JSON.stringify performs it
for the characters that can occur in the values of this development. -/
def escapeChar (c : Char) : String :=
  if c = '\\' then "\\\\"
  else if c = '\"' then "\\\""
  else if c = '\n' then "\\n"
  else if c = '\r' then "\\r"
  else if c = '\t' then "\\t"
  else String.singleton c

/-- JSON string escaping, character by character. -/
def escapeString (s : String) : String :=
  String.join (s.toList.map escapeChar)

mutual

/-- JSON.stringify on a parsed value. Object fields keep insertion order,
as in JavaScript. -/
def stringify : JVal → String
  | .null => "null"
  | .bool true => "true"
  | .bool false => "false"
  | .num n => toString n
  | .str s => "\"" ++ escapeString s ++ "\""
  | .arr elems => "[" ++ stringifyElems elems ++ "]"
  | .obj fields => "\x7b" ++ stringifyFields fields ++ "\x7d"

/-- Comma-separated serialization of array elements. -/
def stringifyElems : List JVal → String
  | [] => ""
  | [v] => stringify v
  | v :: w :: rest => stringify v ++ "," ++ stringifyElems (w :: rest)

/-- Comma-separated serialization of object fields. -/
def stringifyFields : List (String × JVal) → String
  | [] => ""
  | [(k, v)] => "\"" ++ escapeString k ++ "\":" ++ stringify v
  | (k, v) :: f :: rest =>
      "\"" ++ escapeString k ++ "\":" ++ stringify v ++ "," ++ stringifyFields (f :: rest)

end

/-- JavaScript truthiness of a JSON value, used by the merge loop through
the test `!localState[key]` (an absent key yields undefined, also falsy). -/
def truthy : JVal → Bool
  | .null => false
  | .bool b => b
  | .num n => n != 0
  | .str s => !s.isEmpty
  | .arr _ => true
  | .obj _ => true

/-- A JSON object / key-value mapping in insertion order: the shape of the
in-memory state, of localStorage, and of the remote user_data blob. -/
abbrev Blob := List (String × JVal)

/-- Key lookup in a mapping (property access on a JS object). -/
def assocGet (m : Blob) (k : String) : Option JVal :=
  match m with
  | [] => none
  | (k', v) :: rest => if k' = k then some v else assocGet rest k

/-- Whether a key is present in a mapping. -/
def hasKey (m : Blob) (k : String) : Bool :=
  m.any (fun p => p.1 = k)

/-- Replace the value of every entry holding key k, keeping positions. -/
def setExisting (k : String) (v : JVal) : Blob → Blob
  | [] => []
  | (k1, v1) :: rest =>
    if k1 = k then (k, v) :: setExisting k v rest
    else (k1, v1) :: setExisting k v rest

/-- Key update in a mapping, with JS object semantics: an existing key
keeps its position and receives the new value, a new key is appended. -/
def assocSet (m : Blob) (k : String) (v : JVal) : Blob :=
  if hasKey m k then setExisting k v m else m ++ [(k, v)]

/-- Whether pat is an initial segment of s, on character lists. -/
def charsStartWith : List Char → List Char → Bool
  | _, [] => true
  | [], _ :: _ => false
  | c :: cs, d :: ds => c = d && charsStartWith cs ds

/-- Whether pat occurs as a contiguous segment of s, on character lists. -/
def charsContain (pat : List Char) : List Char → Bool
  | [] => charsStartWith [] pat
  | c :: rest => charsStartWith (c :: rest) pat || charsContain pat rest

/-- Whether pat occurs as a substring of s (String.prototype.includes). -/
def containsSubstring (s pat : String) : Bool :=
  charsContain pat.toList s.toList

/-- The key filter of loadInitialState: keys starting with "sb-" (Supabase
auth keys) or containing "api_key" are skipped when reading localStorage. -/
def syncKeyEligible (k : String) : Bool :=
  !(charsStartWith k.toList "sb-".toList) && !(containsSubstring k "api_key")

/-- The localStorage scan of loadInitialState (lines 56-71 of
sync-provider.tsx): every eligible key is read and parsed; parsing is the
identity in this model, so each eligible entry is kept as is. -/
def loadLocal (storage : Blob) : Blob :=
  storage.filter (fun p => syncKeyEligible p.1)

/-- The merge condition of loadInitialState (lines 94-97 of
sync-provider.tsx): `!localState[key] || JSON.stringify(localState[key])
!== JSON.stringify(value)`. -/
def mergeCond (localState : Blob) (k : String) (v : JVal) : Bool :=
  match assocGet localState k with
  | none => true
  | some lv => !truthy lv || stringify lv != stringify v

/-- The merge loop of loadInitialState (lines 93-103 of sync-provider.tsx):
walks the entries of the remote blob; when the merge condition holds, the
remote value is written into the merged state and into localStorage and
hasUpdates is set. Returns (mergedState, localStorage, hasUpdates). -/
def mergeLoop (localState : Blob) :
    Blob → Blob → Blob → Bool → Blob × Blob × Bool
  | [], merged, storage, hasUpdates => (merged, storage, hasUpdates)
  | (k, v) :: rest, merged, storage, hasUpdates =>
    if mergeCond localState k v then
      mergeLoop localState rest (assocSet merged k v) (assocSet storage k v) true
    else
      mergeLoop localState rest merged storage hasUpdates

/-- Environment responses observed during loadInitialState: whether
localStorage exists, whether an authenticated user is present, and the
result of the remote user_data fetch (none covers an error, an absent row,
and a null data column alike: the code requires `!error && userData?.data`). -/
structure LoadEnv where
  localAvailable : Bool
  user : Bool
  remoteData : Option Blob

/-- loadInitialState of sync-provider.tsx (lines 45-115), returning the
resulting in-memory state and the resulting localStorage contents. With no
localStorage the state stays at its initial empty value. When a user and a
remote blob are present the merge loop runs; the merged state is installed
only when hasUpdates was set, and localStorage was already mutated inside
the loop. -/
def loadInitialState (env : LoadEnv) (storage : Blob) : Blob × Blob :=
  if !env.localAvailable then ([], storage)
  else
    let localState := loadLocal storage
    match env.user, env.remoteData with
    | true, some remoteBlob =>
      let res := mergeLoop localState remoteBlob localState storage false
      ((if res.2.2 then res.1 else localState), res.2.1)
    | true, none => (localState, storage)
    | false, _ => (localState, storage)

/-- Environment responses observed during updateState: localStorage
presence, auth user presence, and success of the remote fetch and of the
remote write (update or insert). A failed fetch models a fetchError other
than PGRST116, which the code rethrows. -/
structure SyncEnv where
  localAvailable : Bool
  user : Bool
  remoteFetchOk : Bool
  remoteWriteOk : Bool

/-- The mutable world of the sync provider: in-memory state, localStorage,
the remote user_data row (none = no row yet), and the isSync / isSyncing
flags. -/
structure SyncWorld where
  state : Blob
  storage : Blob
  remote : Option Blob
  isSync : Bool
  isSyncing : Bool
  deriving Repr

/-- Outcome of the remote phase of updateState. -/
inductive RemoteSyncResult where
  | ok (newRemote : Option Blob)
  | failed

/-- The remote phase of updateState (lines 140-180 of sync-provider.tsx):
with no user the phase is skipped and succeeds; otherwise the current row
is fetched (a non-PGRST116 error throws), the key is merged into the
current blob (an absent row contributes the empty object), and the blob is
written back in full, by update when a row existed and by insert otherwise. -/
def syncRemote (env : SyncEnv) (k : String) (v : JVal) (remote : Option Blob) :
    RemoteSyncResult :=
  if env.user then
    if !env.remoteFetchOk then .failed
    else
      let currentData := remote.getD []
      let updatedData := assocSet currentData k v
      if env.remoteWriteOk then .ok (some updatedData) else .failed
  else .ok remote

/-- updateState of sync-provider.tsx (lines 120-191). Without localStorage
it warns and returns with the world untouched. Otherwise it sets isSyncing,
clears isSync, updates the in-memory state and localStorage immediately,
runs the remote phase, sets isSync on success, and on any thrown error
logs and leaves isSync false; the finally block clears isSyncing. The
function always returns normally: every error is caught inside. -/
def updateState (env : SyncEnv) (k : String) (v : JVal) (w : SyncWorld) : SyncWorld :=
  if !env.localAvailable then w
  else
    let state1 := assocSet w.state k v
    let storage1 := assocSet w.storage k v
    match syncRemote env k v w.remote with
    | .ok r =>
      { state := state1, storage := storage1, remote := r,
        isSync := true, isSyncing := false }
    | .failed =>
      { state := state1, storage := storage1, remote := w.remote,
        isSync := false, isSyncing := false }

/-- update followed by a restart and a fresh load: the load observes the
localStorage and (when a user is present) the remote blob left behind by
the update. -/
def updateThenLoad (env : SyncEnv) (k : String) (v : JVal) (w : SyncWorld) :
    Blob × Blob :=
  let w1 := updateState env k v w
  loadInitialState
    ⟨env.localAvailable, env.user, if env.user then w1.remote else none⟩
    w1.storage

/-! Interleaving model for two concurrent updateState calls. The remote
phase of each call performs an awaited fetch of the blob followed by an
awaited write of the merged blob; the event loop may interleave the two
calls at these suspension points. Each atomic step below is one such
awaited operation of update 1 or update 2. -/

/-- Shared remote blob plus the snapshot each in-flight update has fetched
so far (none = the fetch has not run yet). -/
structure RaceState where
  blob : Blob
  snap1 : Option Blob
  snap2 : Option Blob
  deriving Repr

/-- One atomic remote operation of one of the two updates. -/
inductive RaceOp where
  | fetch1
  | fetch2
  | write1
  | write2
  deriving Repr, DecidableEq

/-- Effect of one atomic remote operation: a fetch snapshots the current
blob; a write merges the own key into the snapshot taken by the own fetch
and overwrites the shared blob with the result (a write before the own
fetch cannot occur in the code and is a no-op here). -/
def raceStep (u1 u2 : String × JVal) (s : RaceState) : RaceOp → RaceState
  | .fetch1 => { s with snap1 := some s.blob }
  | .fetch2 => { s with snap2 := some s.blob }
  | .write1 =>
    match s.snap1 with
    | some base => { s with blob := assocSet base u1.1 u1.2 }
    | none => s
  | .write2 =>
    match s.snap2 with
    | some base => { s with blob := assocSet base u2.1 u2.2 }
    | none => s

/-- Run a schedule of atomic remote operations of the two updates. -/
def runRace (u1 u2 : String × JVal) (sched : List RaceOp) (s : RaceState) : RaceState :=
  sched.foldl (raceStep u1 u2) s

/-! Streaming chat normalizer: src/app/(chat)/api/chat/route.ts and
src/app/(chat)/api/chat/anthropic-helper.ts. Each frame enqueued on the
ReadableStream is modelled as its parsed event. -/

/-- A normalized server-sent frame: `data: {"type":"metadata",...}`,
`data: {"type":"content",...}`, or the literal `data: [DONE]` sentinel. -/
inductive SSEvent where
  | metadata (model : String)
  | content (text : String)
  | done
  deriving Repr, DecidableEq

/-- Usage block of the final usage-bearing OpenAI chunk. -/
structure OpenAIUsage where
  total_tokens : Nat
  prompt_tokens : Nat
  completion_tokens : Nat
  deriving Repr, DecidableEq

/-- One OpenAI streaming delta chunk, reduced to the fields the route
reads: chunk.choices[0]?.delta?.content, chunk.usage, and
chunk.choices[0]?.finish_reason. -/
structure OpenAIChunk where
  content : Option String
  usage : Option OpenAIUsage
  finish_reason : Option String
  deriving Repr, DecidableEq

/-- Accumulators of the route stream loop. -/
structure RouteAcc where
  totalTokens : Nat
  inputTokens : Nat
  outputTokens : Nat
  finishReason : String
  totalCharacters : Nat
  deriving Repr, DecidableEq

/-- Initial accumulator values (route.ts lines 64-68). -/
def initRouteAcc : RouteAcc :=
  { totalTokens := 0, inputTokens := 0, outputTokens := 0,
    finishReason := "", totalCharacters := 0 }

/-- The accumulator updates one iteration of the OpenAI stream loop
performs (route.ts lines 84-107): a nonempty delta text is counted into
totalCharacters; a usage block and a finish reason overwrite their
accumulators when present. -/
def openaiChunkAcc (acc : RouteAcc) (c : OpenAIChunk) : RouteAcc :=
  let text := c.content.getD ""
  let acc1 := if text = "" then acc
    else { acc with totalCharacters := acc.totalCharacters + text.length }
  let acc2 := match c.usage with
    | some u =>
      { acc1 with
        totalTokens := u.total_tokens
        inputTokens := u.prompt_tokens
        outputTokens := u.completion_tokens }
    | none => acc1
  match c.finish_reason with
  | some r => { acc2 with finishReason := r }
  | none => acc2

/-- The OpenAI branch of the route stream loop (route.ts lines 83-108):
for each chunk, the delta text defaulted to "" is emitted as a content
event when nonempty, and the accumulators are updated per chunk. -/
def openaiLoop (acc : RouteAcc) : List OpenAIChunk → List SSEvent × RouteAcc
  | [] => ([], acc)
  | c :: rest =>
    let text := c.content.getD ""
    let res := openaiLoop (openaiChunkAcc acc c) rest
    (if text = "" then res.1 else .content text :: res.1, res.2)

/-- One parsed Anthropic stream event, reduced to the fields the helper
reads; contentBlockDelta carries delta.type and delta.text. -/
inductive AnthEvent where
  | contentBlockDelta (deltaType : String) (text : String)
  | messageStart (input_tokens : Nat)
  | messageDelta (output_tokens : Nat)
  | otherEvent
  deriving Repr, DecidableEq

/-- One line of a decoded Anthropic chunk: a `data: [DONE]` line, a
`data: ` line with a parsed event, or any other line. -/
inductive AnthLine where
  | dataDone
  | dataEvent (e : AnthEvent)
  | plain
  deriving Repr, DecidableEq

/-- The usage record accumulated by anthropicStream. -/
structure AnthUsage where
  input_tokens : Nat
  output_tokens : Nat
  characters : Nat
  deriving Repr, DecidableEq

/-- The line loop of anthropicStream (anthropic-helper.ts lines 52-90):
a [DONE] data line breaks out of the loop over the current chunk; a
content_block_delta with delta type text_delta has its text counted and
emitted as a content event (with no emptiness check); message_start and
message_delta update the token counters; other lines are ignored. -/
def anthLines (usage : AnthUsage) : List AnthLine → List SSEvent × AnthUsage
  | [] => ([], usage)
  | .dataDone :: _ => ([], usage)
  | .dataEvent (.contentBlockDelta deltaType text) :: rest =>
    if deltaType = "text_delta" then
      let res := anthLines
        { usage with characters := usage.characters + text.length } rest
      (.content text :: res.1, res.2)
    else anthLines usage rest
  | .dataEvent (.messageStart n) :: rest =>
    anthLines { usage with input_tokens := n } rest
  | .dataEvent (.messageDelta n) :: rest =>
    anthLines { usage with output_tokens := n } rest
  | .dataEvent .otherEvent :: rest => anthLines usage rest
  | .plain :: rest => anthLines usage rest

/-- The reader loop of anthropicStream (anthropic-helper.ts lines 45-91):
each decoded chunk is split into lines and processed by the line loop; the
break on [DONE] only leaves the line loop, so later chunks are still
processed. -/
def anthChunks (usage : AnthUsage) : List (List AnthLine) → List SSEvent × AnthUsage
  | [] => ([], usage)
  | chunk :: rest =>
    let r1 := anthLines usage chunk
    let r2 := anthChunks r1.2 rest
    (r1.1 ++ r2.1, r2.2)

/-- A chat message as sent to the providers. -/
structure ChatMessage where
  role : String
  content : String
  deriving Repr, DecidableEq

/-- The JSON body anthropicStream posts to https://api.anthropic.com/v1/messages
(anthropic-helper.ts lines 22-27). -/
structure AnthropicRequestBody where
  model : String
  messages : List ChatMessage
  max_tokens : Nat
  stream : Bool
  deriving Repr, DecidableEq

/-- Construction of the Anthropic request body: max_tokens is the literal
1024 and stream is true, for every model and message list. -/
def anthropicRequestBody (model : String) (messages : List ChatMessage) :
    AnthropicRequestBody :=
  { model := model, messages := messages, max_tokens := 1024, stream := true }

/-- How a provider answers the initial streaming request: either the chunk
sequence of an accepted stream, or a non-success HTTP status. The OpenAI
SDK throws on a non-2xx status; anthropicStream throws on !response.ok. -/
inductive ProviderResponse (χ : Type) where
  | ok (chunks : χ)
  | httpError (status : Nat)
  deriving Repr

/-- The error thrown inside the stream body and passed to
controller.error, named by the error taxonomy of the design: the OpenAI
SDK and anthropicStream both throw when the initial request returns a
non-success HTTP status, and an unrecognized provider tag throws the
Unknown provider error. -/
inductive StreamError where
  | upstreamRequestFailed (status : Nat)
  | unknownProvider (provider : String)
  deriving Repr, DecidableEq

/-- How the model stream ends for the consumer: controller.close after the
[DONE] frame, or controller.error with the thrown error. -/
inductive StreamOutcome where
  | closed
  | errored (e : StreamError)
  deriving Repr, DecidableEq

/-- The ReadableStream body of the route (route.ts lines 51-160): the
metadata frame is enqueued first, before any provider request; then the
selected provider is called (counting one provider call) and its chunks
are normalized; on success the [DONE] frame is enqueued and the stream is
closed; a thrown error reaches controller.error with no [DONE] frame. An
unknown provider throws after the metadata frame without any provider
call. Returns (events, outcome, provider call count). -/
def streamBody (model provider : String)
    (openaiResp : ProviderResponse (List OpenAIChunk))
    (anthResp : ProviderResponse (List (List AnthLine))) :
    List SSEvent × StreamOutcome × Nat :=
  if provider = "openai" then
    match openaiResp with
    | .ok chunks =>
      let r := openaiLoop initRouteAcc chunks
      (.metadata model :: r.1 ++ [.done], .closed, 1)
    | .httpError status =>
      ([.metadata model], .errored (.upstreamRequestFailed status), 1)
  else if provider = "anthropic" then
    match anthResp with
    | .ok chunks =>
      let r := anthChunks ⟨0, 0, 0⟩ chunks
      (.metadata model :: r.1 ++ [.done], .closed, 1)
    | .httpError status =>
      ([.metadata model], .errored (.upstreamRequestFailed status), 1)
  else
    ([.metadata model], .errored (.unknownProvider provider), 0)

/-- One entry of the model allow-list in src/lib/constants.ts. -/
structure ModelInfo where
  id : String
  name : String
  description : String
  provider : String
  deriving Repr, DecidableEq

/-- AVAILABLE_MODELS from src/lib/constants.ts: the uncommented entries. -/
def AVAILABLE_MODELS : List ModelInfo :=
  [ { id := "gpt-3.5-turbo", name := "GPT-3.5 Turbo",
      description := "Fast and efficient", provider := "openai" },
    { id := "gpt-4o", name := "GPT-4o",
      description := "Optimized for conversations", provider := "openai" },
    { id := "gpt-4o-mini", name := "GPT-4o Mini",
      description := "Lightweight version", provider := "openai" },
    { id := "claude-sonnet-4-20250514", name := "Claude Sonnet 4",
      description := "Balanced cost and quality", provider := "anthropic" } ]

/-- The parsed request body of the chat route: messages (none when the
field is missing or not an array), and the model / provider fields with
their defaults applied when absent. -/
structure ChatRequest where
  messages : Option (List ChatMessage)
  model : Option String
  provider : Option String
  deriving Repr

/-- Environment responses observed by the POST handler: auth user
presence, the entitlement check result, and how each provider would answer
the streaming request. -/
structure PostEnv where
  user : Bool
  entitled : Bool
  openaiResp : ProviderResponse (List OpenAIChunk)
  anthResp : ProviderResponse (List (List AnthLine))

/-- The error thrown inside the try block of POST before the stream is
returned. -/
inductive ChatError where
  | unsupportedModel (model : String)
  deriving Repr, DecidableEq

/-- The value the POST handler produces for the caller: a JSON error
response with a status, or the SSE stream with its frames and outcome. -/
inductive PostResult where
  | jsonError (status : Nat) (message : String)
  | stream (events : List SSEvent) (outcome : StreamOutcome)
  deriving Repr, DecidableEq

/-- The try block of POST (route.ts lines 29-169): validate the messages
array (a 400 response, no throw), apply the model and provider defaults,
throw unsupportedModel when the model is not in AVAILABLE_MODELS, and
otherwise return the stream response. The second component counts calls
made to a provider completion client. -/
def postBody (env : PostEnv) (req : ChatRequest) :
    Except ChatError (PostResult × Nat) :=
  let model := req.model.getD "gpt-3.5-turbo"
  let provider := req.provider.getD "openai"
  match req.messages with
  | none => .ok (.jsonError 400 "Messages array is required", 0)
  | some _ =>
    match AVAILABLE_MODELS.find? (fun m => m.id = model) with
    | none => .error (.unsupportedModel model)
    | some _ =>
      let r := streamBody model provider env.openaiResp env.anthResp
      .ok (.stream r.1 r.2.1, r.2.2)

/-- POST of route.ts (lines 10-184): a missing user yields 401
Unauthorized; a false entitlement check yields 401 Not entitled, both
before the request body is read; then the try block runs and any thrown
error is caught and turned into a 500 Internal server error response.
Returns the response and the number of provider completion calls made. -/
def POST (env : PostEnv) (req : ChatRequest) : PostResult × Nat :=
  if !env.user then (.jsonError 401 "Unauthorized", 0)
  else if !env.entitled then (.jsonError 401 "Not entitled", 0)
  else
    match postBody env req with
    | .ok r => r
    | .error _ => (.jsonError 500 "Internal server error", 0)

/-- The content events the OpenAI loop is expected to emit: one per chunk
whose defaulted delta text is nonempty, in chunk order. -/
def openaiContents (chunks : List OpenAIChunk) : List SSEvent :=
  (chunks.filter (fun c => !(c.content.getD "" = ""))).map
    (fun c => SSEvent.content (c.content.getD ""))

/-- The character total the OpenAI loop is expected to accumulate: the sum
of the lengths of the emitted delta texts. -/
def openaiChars (chunks : List OpenAIChunk) : Nat :=
  ((chunks.filter (fun c => !(c.content.getD "" = ""))).map
    (fun c => (c.content.getD "").length)).sum

/-- A scripted Anthropic stream of content-bearing chunks: each reader
chunk decodes to a single data line carrying one text delta. -/
def anthScript (ts : List String) : List (List AnthLine) :=
  ts.map (fun t => [AnthLine.dataEvent (.contentBlockDelta "text_delta" t)])

/-! Lemmas about assocGet and assocSet. -/

theorem assocGet_setExisting_self (m : Blob) (k : String) (v : JVal)
    (h : hasKey m k = true) :
    assocGet (setExisting k v m) k = some v := by
  induction m with
  | nil => simp [hasKey] at h
  | cons p rest ih =>
    obtain ⟨k1, v1⟩ := p
    by_cases hp : k1 = k
    · simp [setExisting, hp, assocGet]
    · have h' : hasKey rest k = true := by
        simpa [hasKey, hp] using h
      simp [setExisting, hp, assocGet, ih h']

theorem assocGet_append_single_self (m : Blob) (k : String) (v : JVal)
    (h : hasKey m k = false) :
    assocGet (m ++ [(k, v)]) k = some v := by
  induction m with
  | nil => simp [assocGet]
  | cons p rest ih =>
    obtain ⟨k1, v1⟩ := p
    simp only [hasKey, List.any_cons, Bool.or_eq_false_iff] at h
    have hp : ¬ k1 = k := by simpa using h.1
    simp only [List.cons_append, assocGet, if_neg hp]
    exact ih h.2

theorem assocGet_assocSet_self (m : Blob) (k : String) (v : JVal) :
    assocGet (assocSet m k v) k = some v := by
  unfold assocSet
  split
  · exact assocGet_setExisting_self m k v (by assumption)
  · next hany =>
    exact assocGet_append_single_self m k v
      (by simpa only [Bool.not_eq_true] using hany)

theorem assocGet_setExisting_ne (m : Blob) (k k' : String) (v : JVal) (h : k' ≠ k) :
    assocGet (setExisting k' v m) k = assocGet m k := by
  induction m with
  | nil => rfl
  | cons p rest ih =>
    obtain ⟨k1, v1⟩ := p
    by_cases hp : k1 = k'
    · have hpk : ¬ k1 = k := fun hk => h (hp ▸ hk)
      simp [setExisting, hp, assocGet, h, hpk, ih]
    · by_cases hpk : k1 = k
      · subst hpk
        simp [setExisting, Ne.symm h, assocGet]
      · simp [setExisting, hp, assocGet, hpk, ih]

theorem assocGet_append_single_ne (m : Blob) (k k' : String) (v : JVal) (h : k' ≠ k) :
    assocGet (m ++ [(k', v)]) k = assocGet m k := by
  induction m with
  | nil => simp [assocGet, h]
  | cons p rest ih =>
    obtain ⟨k1, v1⟩ := p
    by_cases hpk : k1 = k
    · simp [assocGet, hpk]
    · simp [assocGet, hpk, ih]

theorem assocGet_assocSet_ne (m : Blob) (k k' : String) (v : JVal) (h : k' ≠ k) :
    assocGet (assocSet m k' v) k = assocGet m k := by
  unfold assocSet
  split
  · exact assocGet_setExisting_ne m k k' v h
  · exact assocGet_append_single_ne m k k' v h

theorem setExisting_mem_value (m : Blob) (k : String) (v w : JVal)
    (h : (k, w) ∈ setExisting k v m) : w = v := by
  induction m with
  | nil => simp [setExisting] at h
  | cons p rest ih =>
    obtain ⟨k1, v1⟩ := p
    by_cases hp : k1 = k
    · rw [setExisting, if_pos hp] at h
      rcases List.mem_cons.mp h with hh | hh
      · exact ((Prod.mk.injEq _ _ _ _).mp hh).2
      · exact ih hh
    · rw [setExisting, if_neg hp] at h
      rcases List.mem_cons.mp h with hh | hh
      · exact absurd ((Prod.mk.injEq _ _ _ _).mp hh).1.symm hp
      · exact ih hh

theorem assocSet_mem_value (m : Blob) (k : String) (v w : JVal)
    (h : (k, w) ∈ assocSet m k v) : w = v := by
  unfold assocSet at h
  split at h
  · exact setExisting_mem_value m k v w h
  · next hany =>
    rcases List.mem_append.mp h with hm | hm
    · have hc : hasKey m k = true :=
        List.any_eq_true.mpr ⟨(k, w), hm, by simp⟩
      exact absurd hc hany
    · have hs := List.mem_singleton.mp hm
      exact ((Prod.mk.injEq _ _ _ _).mp hs).2

/-! Lemmas about the merge loop and the localStorage scan. -/

theorem mergeLoop_cons_true (ls rest merged storage : Blob) (h : Bool)
    (k1 : String) (v1 : JVal) (hc : mergeCond ls k1 v1 = true) :
    mergeLoop ls ((k1, v1) :: rest) merged storage h =
      mergeLoop ls rest (assocSet merged k1 v1) (assocSet storage k1 v1) true := by
  simp [mergeLoop, hc]

theorem mergeLoop_cons_false (ls rest merged storage : Blob) (h : Bool)
    (k1 : String) (v1 : JVal) (hc : mergeCond ls k1 v1 = false) :
    mergeLoop ls ((k1, v1) :: rest) merged storage h =
      mergeLoop ls rest merged storage h := by
  simp [mergeLoop, hc]

theorem mergeLoop_get_not_mem (ls : Blob) (k : String) :
    ∀ (entries merged storage : Blob) (h : Bool),
      k ∉ entries.map Prod.fst →
      assocGet (mergeLoop ls entries merged storage h).1 k = assocGet merged k ∧
      assocGet (mergeLoop ls entries merged storage h).2.1 k = assocGet storage k := by
  intro entries
  induction entries with
  | nil => intro merged storage h _; exact ⟨rfl, rfl⟩
  | cons p rest ih =>
    obtain ⟨k1, v1⟩ := p
    intro merged storage h hk
    have hk1 : k1 ≠ k := by
      intro he
      exact hk (by simp [he])
    have hkrest : k ∉ rest.map Prod.fst := by
      intro hmem
      exact hk (by simp [hmem])
    cases hc : mergeCond ls k1 v1 with
    | true =>
      rw [mergeLoop_cons_true ls rest merged storage h k1 v1 hc]
      exact ⟨(ih _ _ _ hkrest).1.trans (assocGet_assocSet_ne merged k k1 v1 hk1),
             (ih _ _ _ hkrest).2.trans (assocGet_assocSet_ne storage k k1 v1 hk1)⟩
    | false =>
      rw [mergeLoop_cons_false ls rest merged storage h k1 v1 hc]
      exact ih _ _ _ hkrest

theorem mergeLoop_hasUpdates_true (ls : Blob) :
    ∀ (entries merged storage : Blob),
      (mergeLoop ls entries merged storage true).2.2 = true := by
  intro entries
  induction entries with
  | nil => intro merged storage; rfl
  | cons p rest ih =>
    obtain ⟨k1, v1⟩ := p
    intro merged storage
    cases hc : mergeCond ls k1 v1 with
    | true =>
      rw [mergeLoop_cons_true ls rest merged storage true k1 v1 hc]
      exact ih _ _
    | false =>
      rw [mergeLoop_cons_false ls rest merged storage true k1 v1 hc]
      exact ih _ _

theorem mergeLoop_get_mem (ls : Blob) (k : String) (v : JVal)
    (hcond : mergeCond ls k v = true) :
    ∀ (entries merged storage : Blob) (h : Bool),
      (entries.map Prod.fst).Nodup → (k, v) ∈ entries →
      assocGet (mergeLoop ls entries merged storage h).1 k = some v ∧
      assocGet (mergeLoop ls entries merged storage h).2.1 k = some v ∧
      (mergeLoop ls entries merged storage h).2.2 = true := by
  intro entries
  induction entries with
  | nil =>
    intro merged storage h _ hmem
    exact absurd hmem (List.not_mem_nil _)
  | cons p rest ih =>
    obtain ⟨k1, v1⟩ := p
    intro merged storage h hnd hmem
    rw [List.map_cons] at hnd
    rcases List.mem_cons.mp hmem with he | hrest
    · injection he with hk hv
      subst hk
      subst hv
      rw [mergeLoop_cons_true ls rest merged storage h k v hcond]
      have hkrest : k ∉ rest.map Prod.fst := (List.nodup_cons.mp hnd).1
      have hmain := mergeLoop_get_not_mem ls k rest
        (assocSet merged k v) (assocSet storage k v) true hkrest
      exact ⟨hmain.1.trans (assocGet_assocSet_self merged k v),
             hmain.2.trans (assocGet_assocSet_self storage k v),
             mergeLoop_hasUpdates_true ls rest _ _⟩
    · have hk1 : k1 ≠ k := by
        intro he1
        subst he1
        exact (List.nodup_cons.mp hnd).1 (List.mem_map.mpr ⟨(k1, v), hrest, rfl⟩)
      have hndrest : (rest.map Prod.fst).Nodup := (List.nodup_cons.mp hnd).2
      cases hc : mergeCond ls k1 v1 with
      | true =>
        rw [mergeLoop_cons_true ls rest merged storage h k1 v1 hc]
        exact ih _ _ _ hndrest hrest
      | false =>
        rw [mergeLoop_cons_false ls rest merged storage h k1 v1 hc]
        exact ih _ _ _ hndrest hrest

theorem mergeLoop_get_uniform (ls : Blob) (k : String) (v : JVal) :
    ∀ (entries merged storage : Blob) (h : Bool),
      (∀ w, (k, w) ∈ entries → w = v) →
      assocGet merged k = some v → assocGet storage k = some v →
      assocGet (mergeLoop ls entries merged storage h).1 k = some v ∧
      assocGet (mergeLoop ls entries merged storage h).2.1 k = some v := by
  intro entries
  induction entries with
  | nil =>
    intro merged storage h _ hm hs
    exact ⟨hm, hs⟩
  | cons p rest ih =>
    obtain ⟨k1, v1⟩ := p
    intro merged storage h huni hm hs
    have hrest : ∀ w, (k, w) ∈ rest → w = v :=
      fun w hw => huni w (List.mem_cons_of_mem _ hw)
    by_cases hk1 : k1 = k
    · subst hk1
      have hv1 : v1 = v := huni v1 (List.mem_cons_self _ _)
      subst hv1
      cases hc : mergeCond ls k1 v1 with
      | true =>
        rw [mergeLoop_cons_true ls rest merged storage h k1 v1 hc]
        exact ih _ _ _ hrest (assocGet_assocSet_self merged k1 v1)
          (assocGet_assocSet_self storage k1 v1)
      | false =>
        rw [mergeLoop_cons_false ls rest merged storage h k1 v1 hc]
        exact ih _ _ _ hrest hm hs
    · cases hc : mergeCond ls k1 v1 with
      | true =>
        rw [mergeLoop_cons_true ls rest merged storage h k1 v1 hc]
        exact ih _ _ _ hrest
          ((assocGet_assocSet_ne merged k k1 v1 hk1).trans hm)
          ((assocGet_assocSet_ne storage k k1 v1 hk1).trans hs)
      | false =>
        rw [mergeLoop_cons_false ls rest merged storage h k1 v1 hc]
        exact ih _ _ _ hrest hm hs

theorem assocGet_loadLocal (storage : Blob) (k : String)
    (h : syncKeyEligible k = true) :
    assocGet (loadLocal storage) k = assocGet storage k := by
  induction storage with
  | nil => rfl
  | cons p rest ih =>
    obtain ⟨k1, v1⟩ := p
    by_cases hk1 : k1 = k
    · subst hk1
      simp [loadLocal, List.filter_cons, h, assocGet]
    · by_cases he : syncKeyEligible k1 = true
      · simpa [loadLocal, List.filter_cons, he, assocGet, hk1] using ih
      · have he' : syncKeyEligible k1 = false := by
          cases hx : syncKeyEligible k1 with
          | false => rfl
          | true => exact absurd hx he
        simpa [loadLocal, List.filter_cons, he', assocGet, hk1] using ih

theorem loadInitialState_user (storage remoteBlob : Blob) :
    loadInitialState ⟨true, true, some remoteBlob⟩ storage =
      ((if (mergeLoop (loadLocal storage) remoteBlob (loadLocal storage) storage false).2.2
          then (mergeLoop (loadLocal storage) remoteBlob (loadLocal storage) storage false).1
          else loadLocal storage),
       (mergeLoop (loadLocal storage) remoteBlob (loadLocal storage) storage false).2.1) :=
  rfl

/-- C1: merge precedence of load. For every key of the remote record whose
value is absent locally or differs from the local value under JSON
serialization, the remote value is the one in the returned merged mapping
and is persisted to localStorage; a key present only locally keeps its
local value; and on local = (A,1),(B,2) against remote = (B,3),(C,4) the
load returns (A,1),(B,3),(C,4) and persists B and C back. -/
theorem c1_load_merge_precedence
    (storage remoteBlob : Blob) (k : String) (v : JVal)
    (hnd : (remoteBlob.map Prod.fst).Nodup) :
    (((k, v) ∈ remoteBlob →
        (assocGet (loadLocal storage) k = none ∨
          ∃ lv, assocGet (loadLocal storage) k = some lv ∧
            stringify lv ≠ stringify v) →
        assocGet (loadInitialState ⟨true, true, some remoteBlob⟩ storage).1 k = some v ∧
        assocGet (loadInitialState ⟨true, true, some remoteBlob⟩ storage).2 k = some v) ∧
      (k ∉ remoteBlob.map Prod.fst →
        assocGet (loadInitialState ⟨true, true, some remoteBlob⟩ storage).1 k =
          assocGet (loadLocal storage) k)) ∧
    loadInitialState ⟨true, true, some [("B", .num 3), ("C", .num 4)]⟩
        [("A", .num 1), ("B", .num 2)] =
      ([("A", .num 1), ("B", .num 3), ("C", .num 4)],
       [("A", .num 1), ("B", .num 3), ("C", .num 4)]) := by
  refine ⟨⟨?_, ?_⟩, rfl⟩
  · intro hmem hclaim
    have hcond : mergeCond (loadLocal storage) k v = true := by
      rcases hclaim with hnone | ⟨lv, hlv, hne⟩
      · simp [mergeCond, hnone]
      · simp [mergeCond, hlv, hne]
    have hmain := mergeLoop_get_mem (loadLocal storage) k v hcond
      remoteBlob (loadLocal storage) storage false hnd hmem
    rw [loadInitialState_user]
    refine ⟨?_, hmain.2.1⟩
    simp only [hmain.2.2, if_true]
    exact hmain.1
  · intro hnot
    have hnm := mergeLoop_get_not_mem (loadLocal storage) k
      remoteBlob (loadLocal storage) storage false hnot
    rw [loadInitialState_user]
    cases hup : (mergeLoop (loadLocal storage) remoteBlob
        (loadLocal storage) storage false).2.2 with
    | true =>
      simp only [hup, if_true]
      exact hnm.1
    | false =>
      simp [hup]

/-- Witness for C1 at a concrete input: remote key C with value 4, absent
locally, ends up in the merged state and in localStorage. -/
theorem c1_load_merge_precedence_witness :
    assocGet (loadInitialState ⟨true, true, some [("B", .num 3), ("C", .num 4)]⟩
      [("A", .num 1), ("B", .num 2)]).1 "C" = some (.num 4) ∧
    assocGet (loadInitialState ⟨true, true, some [("B", .num 3), ("C", .num 4)]⟩
      [("A", .num 1), ("B", .num 2)]).2 "C" = some (.num 4) :=
  (c1_load_merge_precedence [("A", .num 1), ("B", .num 2)]
      [("B", .num 3), ("C", .num 4)] "C" (.num 4) (by decide)).1.1
    (List.mem_cons_of_mem _ (List.mem_cons_self _ _)) (Or.inl rfl)

/-- C2 counterexample: the claim quantifies over every string key, but a
key starting with "sb-" is written by update and then skipped by the load
scan, so with no remote store the round trip loses it. -/
theorem c2_roundtrip_counterexample :
    assocGet (updateThenLoad ⟨true, false, true, true⟩ "sb-k" (.num 1)
      { state := [], storage := [], remote := none,
        isSync := true, isSyncing := false }).1 "sb-k" = none := rfl

/-- C2 (amended): for every key the load scan does not filter out (not
starting with "sb-", not containing "api_key"), update(K, V) followed by
load() returns a mapping containing K bound to V, both without a remote
store (unauthenticated) and with a fully available remote store. -/
theorem c2_update_then_load_contains_key
    (env : SyncEnv) (k : String) (v : JVal) (w : SyncWorld)
    (hl : env.localAvailable = true)
    (hk : syncKeyEligible k = true)
    (hr : env.user = false ∨ (env.remoteFetchOk = true ∧ env.remoteWriteOk = true)) :
    assocGet (updateThenLoad env k v w).1 k = some v := by
  obtain ⟨la, us, fo, wo⟩ := env
  have hl' : la = true := hl
  subst hl'
  rcases hr with hu | ⟨hf, hw⟩
  · have hu' : us = false := hu
    subst hu'
    have hred : updateThenLoad ⟨true, false, fo, wo⟩ k v w =
        (loadLocal (assocSet w.storage k v), assocSet w.storage k v) := rfl
    rw [hred]
    exact (assocGet_loadLocal _ k hk).trans (assocGet_assocSet_self _ k v)
  · have hf' : fo = true := hf
    have hw' : wo = true := hw
    subst hf'
    subst hw'
    cases hus : us with
    | false =>
      have hred : updateThenLoad ⟨true, false, true, true⟩ k v w =
          (loadLocal (assocSet w.storage k v), assocSet w.storage k v) := rfl
      rw [hus] at *
      rw [hred]
      exact (assocGet_loadLocal _ k hk).trans (assocGet_assocSet_self _ k v)
    | true =>
      subst hus
      have hred : updateThenLoad ⟨true, true, true, true⟩ k v w =
          loadInitialState ⟨true, true, some (assocSet (w.remote.getD []) k v)⟩
            (assocSet w.storage k v) := rfl
      rw [hred, loadInitialState_user]
      have hls : assocGet (loadLocal (assocSet w.storage k v)) k = some v :=
        (assocGet_loadLocal _ k hk).trans (assocGet_assocSet_self _ k v)
      have hst : assocGet (assocSet w.storage k v) k = some v :=
        assocGet_assocSet_self _ k v
      have huni : ∀ w', (k, w') ∈ assocSet (w.remote.getD []) k v → w' = v :=
        fun w' hw' => assocSet_mem_value _ k v w' hw'
      have hm := mergeLoop_get_uniform (loadLocal (assocSet w.storage k v)) k v
        (assocSet (w.remote.getD []) k v)
        (loadLocal (assocSet w.storage k v)) (assocSet w.storage k v) false
        huni hls hst
      cases hup : (mergeLoop (loadLocal (assocSet w.storage k v))
          (assocSet (w.remote.getD []) k v)
          (loadLocal (assocSet w.storage k v)) (assocSet w.storage k v) false).2.2 with
      | true =>
        simp only [hup, if_true]
        exact hm.1
      | false =>
        simp only [hup, if_false]
        exact hls

/-- Witness for C2 at a concrete input: an eligible key written while
authenticated with a working remote store survives the round trip, even
against a stale remote value for the same key. -/
theorem c2_update_then_load_contains_key_witness :
    assocGet (updateThenLoad ⟨true, true, true, true⟩ "draft" (.num 7)
      { state := [], storage := [("other", .num 1)],
        remote := some [("draft", .num 5)],
        isSync := true, isSyncing := false }).1 "draft" = some (.num 7) :=
  c2_update_then_load_contains_key ⟨true, true, true, true⟩ "draft" (.num 7)
    { state := [], storage := [("other", .num 1)],
      remote := some [("draft", .num 5)],
      isSync := true, isSyncing := false } rfl (by decide) (Or.inr ⟨rfl, rfl⟩)

/-! Lemmas about the stream loops. -/

theorem openaiContents_cons_skip (c : OpenAIChunk) (rest : List OpenAIChunk)
    (hc : c.content.getD "" = "") :
    openaiContents (c :: rest) = openaiContents rest := by
  simp [openaiContents, List.filter_cons, hc]

theorem openaiContents_cons_emit (c : OpenAIChunk) (rest : List OpenAIChunk)
    (hc : ¬ c.content.getD "" = "") :
    openaiContents (c :: rest) =
      SSEvent.content (c.content.getD "") :: openaiContents rest := by
  simp [openaiContents, List.filter_cons, hc]

theorem openaiChars_cons_skip (c : OpenAIChunk) (rest : List OpenAIChunk)
    (hc : c.content.getD "" = "") :
    openaiChars (c :: rest) = openaiChars rest := by
  simp [openaiChars, List.filter_cons, hc]

theorem openaiChars_cons_emit (c : OpenAIChunk) (rest : List OpenAIChunk)
    (hc : ¬ c.content.getD "" = "") :
    openaiChars (c :: rest) = (c.content.getD "").length + openaiChars rest := by
  simp [openaiChars, List.filter_cons, hc]

theorem openaiChunkAcc_chars (acc : RouteAcc) (c : OpenAIChunk) :
    (openaiChunkAcc acc c).totalCharacters =
      acc.totalCharacters +
        (if c.content.getD "" = "" then 0 else (c.content.getD "").length) := by
  unfold openaiChunkAcc
  cases c.usage <;> cases c.finish_reason <;>
    by_cases hc : c.content.getD "" = "" <;> simp [hc]

theorem openaiLoop_spec :
    ∀ (chunks : List OpenAIChunk) (acc : RouteAcc),
      (openaiLoop acc chunks).1 = openaiContents chunks ∧
      (openaiLoop acc chunks).2.totalCharacters =
        acc.totalCharacters + openaiChars chunks := by
  intro chunks
  induction chunks with
  | nil =>
    intro acc
    exact ⟨rfl, by simp [openaiLoop, openaiChars, openaiContents]⟩
  | cons c rest ih =>
    intro acc
    have hr := ih (openaiChunkAcc acc c)
    have hstep := openaiChunkAcc_chars acc c
    by_cases hc : c.content.getD "" = ""
    · constructor
      · rw [openaiContents_cons_skip c rest hc]
        simpa [openaiLoop, hc] using hr.1
      · rw [openaiChars_cons_skip c rest hc]
        have h2 : (openaiLoop acc (c :: rest)).2 =
            (openaiLoop (openaiChunkAcc acc c) rest).2 := by
          simp [openaiLoop]
        rw [h2, hr.2, hstep]
        simp [hc]
    · constructor
      · rw [openaiContents_cons_emit c rest hc]
        simpa [openaiLoop, hc] using congrArg (SSEvent.content (c.content.getD "") :: ·) hr.1
      · rw [openaiChars_cons_emit c rest hc]
        have h2 : (openaiLoop acc (c :: rest)).2 =
            (openaiLoop (openaiChunkAcc acc c) rest).2 := by
          simp [openaiLoop]
        rw [h2, hr.2, hstep]
        simp [hc]
        omega

theorem anthLines_single_text (usage : AnthUsage) (t : String) :
    anthLines usage [AnthLine.dataEvent (.contentBlockDelta "text_delta" t)] =
      ([SSEvent.content t],
       { usage with characters := usage.characters + t.length }) := by
  simp [anthLines]

theorem anthChunks_script :
    ∀ (ts : List String) (usage : AnthUsage),
      (anthChunks usage (anthScript ts)).1 = ts.map SSEvent.content ∧
      (anthChunks usage (anthScript ts)).2.characters =
        usage.characters + (ts.map String.length).sum := by
  intro ts
  induction ts with
  | nil =>
    intro usage
    exact ⟨rfl, by simp [anthChunks, anthScript]⟩
  | cons t rest ih =>
    intro usage
    have hr := ih { usage with characters := usage.characters + t.length }
    rw [show anthScript (t :: rest) =
        [AnthLine.dataEvent (.contentBlockDelta "text_delta" t)] :: anthScript rest
      from rfl]
    constructor
    · simp [anthChunks, anthLines_single_text, hr.1]
    · simp [anthChunks, anthLines_single_text, hr.2]
      omega

/-- C3: for a scripted provider stream of content-bearing chunks, the
normalized event list is exactly one metadata frame first, then one
content event per chunk mirroring upstream order and payloads, then one
[DONE] sentinel last; and the accumulated character count equals the sum
of the chunk text lengths — for the openai provider (chunks whose
defaulted delta text is nonempty) and for the anthropic provider (chunks
each decoding to one text delta line). -/
theorem c3_stream_normalization
    (model : String) (chunks : List OpenAIChunk) (ts : List String)
    (oresp : ProviderResponse (List OpenAIChunk))
    (aresp : ProviderResponse (List (List AnthLine)))
    (h : ∀ c ∈ chunks, c.content.getD "" ≠ "") :
    (streamBody model "openai" (.ok chunks) aresp).1 =
      SSEvent.metadata model ::
        chunks.map (fun c => SSEvent.content (c.content.getD "")) ++ [SSEvent.done] ∧
    (openaiLoop initRouteAcc chunks).2.totalCharacters =
      (chunks.map (fun c => (c.content.getD "").length)).sum ∧
    (streamBody model "anthropic" oresp (.ok (anthScript ts))).1 =
      SSEvent.metadata model :: ts.map SSEvent.content ++ [SSEvent.done] ∧
    (anthChunks ⟨0, 0, 0⟩ (anthScript ts)).2.characters = (ts.map String.length).sum := by
  have hfilter : chunks.filter (fun c => !(c.content.getD "" = "")) = chunks :=
    List.filter_eq_self.mpr (fun c hc => by simpa using h c hc)
  have ho := openaiLoop_spec chunks initRouteAcc
  have ha := anthChunks_script ts ⟨0, 0, 0⟩
  have hredo : (streamBody model "openai" (.ok chunks) aresp).1 =
      SSEvent.metadata model :: (openaiLoop initRouteAcc chunks).1 ++ [SSEvent.done] :=
    rfl
  have hreda : (streamBody model "anthropic" oresp (.ok (anthScript ts))).1 =
      SSEvent.metadata model ::
        (anthChunks ⟨0, 0, 0⟩ (anthScript ts)).1 ++ [SSEvent.done] :=
    rfl
  refine ⟨?_, ?_, ?_, ?_⟩
  · rw [hredo, ho.1]
    simp [openaiContents, hfilter]
  · rw [ho.2]
    simp [initRouteAcc, openaiChars, hfilter]
  · rw [hreda, ha.1]
  · rw [ha.2]
    simp

/-- Witness for C3 at a concrete input: two openai chunks and two
anthropic text deltas. -/
theorem c3_stream_normalization_witness :
    (streamBody "gpt-4o" "openai"
      (.ok [OpenAIChunk.mk (some "Hel") none none,
            OpenAIChunk.mk (some "lo") none (some "stop")])
      (.httpError 500)).1 =
      SSEvent.metadata "gpt-4o" ::
        [OpenAIChunk.mk (some "Hel") none none,
         OpenAIChunk.mk (some "lo") none (some "stop")].map
          (fun c => SSEvent.content (c.content.getD "")) ++ [SSEvent.done] ∧
    (openaiLoop initRouteAcc
      [OpenAIChunk.mk (some "Hel") none none,
       OpenAIChunk.mk (some "lo") none (some "stop")]).2.totalCharacters =
      ([OpenAIChunk.mk (some "Hel") none none,
        OpenAIChunk.mk (some "lo") none (some "stop")].map
        (fun c => (c.content.getD "").length)).sum ∧
    (streamBody "gpt-4o" "anthropic" (.httpError 500)
      (.ok (anthScript ["a", "bc"]))).1 =
      SSEvent.metadata "gpt-4o" ::
        ["a", "bc"].map SSEvent.content ++ [SSEvent.done] ∧
    (anthChunks ⟨0, 0, 0⟩ (anthScript ["a", "bc"])).2.characters =
      (["a", "bc"].map String.length).sum :=
  c3_stream_normalization "gpt-4o"
    [OpenAIChunk.mk (some "Hel") none none,
     OpenAIChunk.mk (some "lo") none (some "stop")]
    ["a", "bc"] (.httpError 500) (.httpError 500) (by decide)

/-- C4 counterexample: with a provider returning HTTP 500 before any chunk
is read, the stream still carries the metadata frame, which the route
enqueues before issuing the provider request — an event is emitted before
the failure, contradicting the claim that no metadata event is emitted. -/
theorem c4_metadata_before_failure_counterexample :
    (streamBody "gpt-4o" "openai" (.httpError 500) (.httpError 500)).1 =
      [SSEvent.metadata "gpt-4o"] ∧
    (streamBody "gpt-4o" "openai" (.httpError 500) (.httpError 500)).1 ≠ [] ∧
    (streamBody "gpt-4o" "openai" (.httpError 500) (.httpError 500)).2.1 =
      .errored (.upstreamRequestFailed 500) :=
  ⟨rfl, by decide, rfl⟩

/-- C4 (amended): a non-success HTTP status from either provider before
any chunk is read yields zero content events, no [DONE] sentinel, and an
upstreamRequestFailed error reported through controller.error; the single
metadata frame, enqueued before the provider request is issued, is the
only emitted event. -/
theorem c4_upstream_failure_semantics
    (model : String) (status : Nat)
    (oresp : ProviderResponse (List OpenAIChunk))
    (aresp : ProviderResponse (List (List AnthLine))) :
    streamBody model "openai" (.httpError status) aresp =
      ([SSEvent.metadata model], .errored (.upstreamRequestFailed status), 1) ∧
    streamBody model "anthropic" oresp (.httpError status) =
      ([SSEvent.metadata model], .errored (.upstreamRequestFailed status), 1) :=
  ⟨rfl, rfl⟩

/-- C5 counterexample: two interleaved update calls for distinct keys K1
and K2 over an empty remote blob, scheduled fetch1, fetch2, write1,
write2 — both fetches awaited before either write resolves — leave a
remote blob in which K1 is absent: the second write merged into a
snapshot that predates the first write, so the first update is lost. -/
theorem c5_interleaved_updates_lose_key_counterexample :
    assocGet (runRace ("K1", .num 1) ("K2", .num 2)
      [.fetch1, .fetch2, .write1, .write2] ⟨[], none, none⟩).blob "K1" = none ∧
    assocGet (runRace ("K1", .num 1) ("K2", .num 2)
      [.fetch1, .fetch2, .write1, .write2] ⟨[], none, none⟩).blob "K2" =
      some (.num 2) :=
  ⟨rfl, rfl⟩

/-- C5 (amended): when the two read-merge-write sequences are serialized
(the second update fetches only after the first update's write has
resolved), the final remote blob holds both keys with their values; the
no-lost-update property holds only for such serialized schedules, not for
every interleaving. -/
theorem c5_serialized_updates_keep_both
    (k1 k2 : String) (v1 v2 : JVal) (blob0 : Blob) (hne : k1 ≠ k2) :
    assocGet (runRace (k1, v1) (k2, v2)
      [.fetch1, .write1, .fetch2, .write2] ⟨blob0, none, none⟩).blob k1 = some v1 ∧
    assocGet (runRace (k1, v1) (k2, v2)
      [.fetch1, .write1, .fetch2, .write2] ⟨blob0, none, none⟩).blob k2 = some v2 := by
  have hred : runRace (k1, v1) (k2, v2) [.fetch1, .write1, .fetch2, .write2]
      ⟨blob0, none, none⟩ =
      ⟨assocSet (assocSet blob0 k1 v1) k2 v2, some blob0,
       some (assocSet blob0 k1 v1)⟩ := rfl
  rw [hred]
  exact ⟨(assocGet_assocSet_ne _ k1 k2 v2 (Ne.symm hne)).trans
           (assocGet_assocSet_self blob0 k1 v1),
         assocGet_assocSet_self _ k2 v2⟩

/-- Witness for C5 (amended) at a concrete input. -/
theorem c5_serialized_updates_keep_both_witness :
    assocGet (runRace ("K1", .num 1) ("K2", .num 2)
      [.fetch1, .write1, .fetch2, .write2] ⟨[], none, none⟩).blob "K1" =
      some (.num 1) ∧
    assocGet (runRace ("K1", .num 1) ("K2", .num 2)
      [.fetch1, .write1, .fetch2, .write2] ⟨[], none, none⟩).blob "K2" =
      some (.num 2) :=
  c5_serialized_updates_keep_both "K1" "K2" (.num 1) (.num 2) [] (by decide)

/-- C6: when the remote phase of update fails (rethrown fetch error or
failed write), the in-memory state and localStorage keep the new value —
no rollback — the remote blob is untouched, isSync is left false
(out-of-sync) and isSyncing is cleared; updateState is a total function
returning this world, so no error reaches the caller and no retry exists. -/
theorem c6_remote_failure_local_durability
    (env : SyncEnv) (k : String) (v : JVal) (w : SyncWorld)
    (hl : env.localAvailable = true) (hu : env.user = true)
    (hfail : env.remoteFetchOk = false ∨ env.remoteWriteOk = false) :
    updateState env k v w =
      { state := assocSet w.state k v, storage := assocSet w.storage k v,
        remote := w.remote, isSync := false, isSyncing := false } := by
  obtain ⟨la, us, fo, wo⟩ := env
  have hl' : la = true := hl
  have hu' : us = true := hu
  subst hl'
  subst hu'
  rcases hfail with hf | hw
  · have hf' : fo = false := hf
    subst hf'
    rfl
  · have hw' : wo = false := hw
    subst hw'
    cases fo with
    | false => rfl
    | true => rfl

/-- Witness for C6 at a concrete input: a failed remote write. -/
theorem c6_remote_failure_local_durability_witness :
    updateState ⟨true, true, true, false⟩ "k" (.num 2)
      { state := [], storage := [], remote := some [("k", .num 1)],
        isSync := true, isSyncing := false } =
      { state := assocSet [] "k" (.num 2), storage := assocSet [] "k" (.num 2),
        remote := some [("k", .num 1)], isSync := false, isSyncing := false } :=
  c6_remote_failure_local_durability ⟨true, true, true, false⟩ "k" (.num 2)
    { state := [], storage := [], remote := some [("k", .num 1)],
      isSync := true, isSyncing := false } rfl rfl (Or.inr rfl)

/-- C7: a model identifier outside AVAILABLE_MODELS makes the try block of
POST throw Model not supported before any provider client is constructed
or called; the caller receives the 500 JSON error produced by the outer
catch, zero provider calls are made and no stream event is emitted. -/
theorem c7_unsupported_model_rejected
    (env : PostEnv) (req : ChatRequest) (m : String) (msgs : List ChatMessage)
    (hu : env.user = true) (he : env.entitled = true)
    (hm : req.model = some m) (hmsg : req.messages = some msgs)
    (hnot : AVAILABLE_MODELS.find? (fun mi => mi.id = m) = none) :
    postBody env req = .error (.unsupportedModel m) ∧
    POST env req = (.jsonError 500 "Internal server error", 0) := by
  have hb : postBody env req = .error (.unsupportedModel m) := by
    simp [postBody, hm, hmsg, hnot]
  refine ⟨hb, ?_⟩
  simp [POST, hu, he, hb]

/-- Witness for C7 at a concrete input: an unlisted model identifier. -/
theorem c7_unsupported_model_rejected_witness :
    postBody ⟨true, true, .ok [], .ok []⟩
      { messages := some [], model := some "model-x", provider := some "openai" } =
      .error (.unsupportedModel "model-x") ∧
    POST ⟨true, true, .ok [], .ok []⟩
      { messages := some [], model := some "model-x", provider := some "openai" } =
      (.jsonError 500 "Internal server error", 0) :=
  c7_unsupported_model_rejected ⟨true, true, .ok [], .ok []⟩
    { messages := some [], model := some "model-x", provider := some "openai" }
    "model-x" [] rfl rfl rfl rfl (by decide)

/-- C8: a false entitlement check on an authenticated request makes POST
return the 401 Not entitled JSON error before the body is read: zero
provider calls and no stream events. -/
theorem c8_not_entitled_no_provider_call
    (env : PostEnv) (req : ChatRequest)
    (hu : env.user = true) (he : env.entitled = false) :
    POST env req = (.jsonError 401 "Not entitled", 0) := by
  simp [POST, hu, he]

/-- Witness for C8 at a concrete input. -/
theorem c8_not_entitled_no_provider_call_witness :
    POST ⟨true, false, .ok [], .ok []⟩
      { messages := some [], model := some "gpt-4o", provider := some "openai" } =
      (.jsonError 401 "Not entitled", 0) :=
  c8_not_entitled_no_provider_call ⟨true, false, .ok [], .ok []⟩
    { messages := some [], model := some "gpt-4o", provider := some "openai" }
    rfl rfl

/-- C9: every streaming request body anthropicStream posts to the
Anthropic API carries the literal max_tokens 1024 (and stream true),
whatever the model and message list — an implicit hard cap of 1024 output
tokens for the anthropic provider. -/
theorem c9_anthropic_max_output_cap
    (model : String) (messages : List ChatMessage) :
    (anthropicRequestBody model messages).max_tokens = 1024 ∧
    (anthropicRequestBody model messages).stream = true :=
  ⟨rfl, rfl⟩

/-- C10: without localStorage, updateState warns and returns before
touching anything: the returned world equals the input world — in-memory
state, localStorage, remote blob and the isSync / isSyncing flags all
unchanged — and the total function returns normally, surfacing no error. -/
theorem c10_update_noop_without_local_storage
    (env : SyncEnv) (k : String) (v : JVal) (w : SyncWorld)
    (h : env.localAvailable = false) :
    updateState env k v w = w := by
  obtain ⟨la, us, fo, wo⟩ := env
  have h' : la = false := h
  subst h'
  rfl

/-- Witness for C10 at a concrete input. -/
theorem c10_update_noop_without_local_storage_witness :
    updateState ⟨false, true, true, true⟩ "k" (.num 3)
      { state := [("a", .num 1)], storage := [("a", .num 1)],
        remote := some [], isSync := true, isSyncing := false } =
      { state := [("a", .num 1)], storage := [("a", .num 1)],
        remote := some [], isSync := true, isSyncing := false } :=
  c10_update_noop_without_local_storage ⟨false, true, true, true⟩ "k" (.num 3)
    { state := [("a", .num 1)], storage := [("a", .num 1)],
      remote := some [], isSync := true, isSyncing := false } rfl
